import Mathlib

/-!
A shallow embedding of the CHIP-8 virtual machine implemented in
`src/chip.rs` (struct `Chip` and its methods `new`, `load`,
`execute_instruction`, `start_loop`, `load_fonts`).

Machine integers are modelled as `Nat` with explicit `% 2^w` at the points
where the Rust code casts or wraps.  Rust's `Vec<u16>` stack is modelled as
a `List Nat` whose head is the top of the stack (`push` = cons, `pop` =
uncons).  Indexing a Rust array out of bounds panics; those reads and
writes carry an explicit bound check and produce `Outcome.crash`.
A `Result::Err` return is `Outcome.fatal`, carrying the error kind and the
machine state as it stands when the error is returned (Rust's `self`
persists across an `Err`).  The SDL display and the audio sink are host
collaborators with no bearing on the machine state, so `clear_screen`,
`draw` and `beep` are treated as having no effect on the `Chip` state.
-/

/-- The machine state: struct `Chip` in `src/chip.rs` (the `display` handle
and the host key map are external collaborators; the key map is modelled
separately as `keypad_map`). -/
structure Chip where
  memory : Nat → Nat        -- `[u8; 4096]`
  pc : Nat                  -- `u16`
  registers : Nat → Nat     -- `[u8; 16]`
  i : Nat                   -- `u16`
  dt : Nat                  -- `u8`
  st : Nat                  -- `u8`
  waiting_for_key : Bool
  waiting_key_register : Nat
  screen : Nat → Nat        -- `[u8; 64*32]`
  stack : List Nat          -- `Vec<u16>`, head = top
  keypad : Nat → Bool       -- `[bool; 16]`

/-- Point update of an indexed store (`arr[k] = v`). -/
def upd {α : Type} (f : Nat → α) (k : Nat) (v : α) : Nat → α :=
  fun j => if j = k then v else f j

/-- `const STACK_SIZE: usize = 30;` -/
def STACK_SIZE : Nat := 30

/-- `const WIDTH: usize = 64;` -/
def WIDTH : Nat := 64

/-- `const HEIGHT: usize = 32;` -/
def HEIGHT : Nat := 32

/-- The error values built with `Error::new(ErrorKind::Other, ..)` in
`execute_instruction`. -/
inductive VmErr where
  | stackOverflow    -- message "Stack overflow"
  | stackUnderflow   -- message "Trying to return from the main stack"
deriving DecidableEq

/-- Result of running one instruction: normal return `Ok(())`, an `Err`
return (state persists in `self`), or a Rust panic (out-of-bounds index). -/
inductive Outcome where
  | ok (s : Chip)
  | fatal (e : VmErr) (s : Chip)
  | crash

/-- Inner loop of the `0xD000` arm (`for column in 0..8`): blit the eight
bits of one sprite row, setting VF on collision, XOR-ing into the screen. -/
def drawCols (spriteRow x y row : Nat) (l : List Nat) (s : Chip) : Chip :=
  match l with
  | [] => s
  | column :: rest =>
    let pixel := (spriteRow >>> (7 - column)) &&& 1
    let screen_x := (x + column) % WIDTH
    let screen_y := (y + row) % HEIGHT
    let pixel_index := screen_y * WIDTH + screen_x
    let s1 := if pixel = 1 ∧ s.screen pixel_index = 1 then
        { s with registers := upd s.registers 0xF 1 } else s
    drawCols spriteRow x y row rest
      { s1 with screen := upd s1.screen pixel_index (s1.screen pixel_index ^^^ pixel) }

/-- Outer loop of the `0xD000` arm (`for row in 0..n`): read each sprite
byte at `self.memory[(self.i + row) as usize]` — a read at or beyond 4096
is an out-of-bounds panic — and blit it. -/
def drawRowsGo (x y : Nat) (l : List Nat) (s : Chip) : Outcome :=
  match l with
  | [] => .ok s
  | row :: rest =>
    if s.i + row < 4096 then
      drawRowsGo x y rest (drawCols (s.memory (s.i + row)) x y row (List.range 8) s)
    else .crash

/-- Loop of the `0xF055` arm (`for i in 0..x+1`):
`self.memory[(self.i + i) as usize] = self.registers[i as usize]`. -/
def storeGo (l : List Nat) (s : Chip) : Outcome :=
  match l with
  | [] => .ok s
  | j :: rest =>
    if s.i + j < 4096 then
      storeGo rest { s with memory := upd s.memory (s.i + j) (s.registers j) }
    else .crash

/-- Loop of the `0xF065` arm (`for i in 0..x+1`):
`self.registers[i as usize] = self.memory[(self.i + i) as usize]`. -/
def loadGo (l : List Nat) (s : Chip) : Outcome :=
  match l with
  | [] => .ok s
  | j :: rest =>
    if s.i + j < 4096 then
      loadGo rest { s with registers := upd s.registers j (s.memory (s.i + j)) }
    else .crash

/-- The dispatch on a fetched 16-bit instruction word: the body of
`execute_instruction` after `self.pc += 2` (the `match nibble` expression).
`rand` models the byte drawn from `rand::random::<u8>()` in the `0xC000`
arm. -/
def execOp (rand : Nat) (instruction : Nat) (s : Chip) : Outcome :=
  let nibble := instruction &&& 0xF000
  if nibble = 0x0000 then
    -- system instructions
    if instruction = 0x00E0 then
      .ok { s with screen := fun _ => 0 }
    else if instruction = 0x00EE then
      match s.stack with
      | [] => .fatal .stackUnderflow s
      | address :: rest => .ok { s with pc := address, stack := rest }
    else .ok s
  else if nibble = 0x1000 then
    let jump_addr := instruction &&& 0x0FFF
    .ok { s with pc := jump_addr }
  else if nibble = 0x2000 then
    if s.stack.length + 1 ≥ STACK_SIZE then .fatal .stackOverflow s
    else
      let address := instruction &&& 0x0FFF
      .ok { s with stack := s.pc :: s.stack, pc := address }
  else if nibble = 0x3000 then
    let x := (instruction &&& 0x0F00) >>> 8
    let value := instruction &&& 0x00FF
    if s.registers x = value then .ok { s with pc := s.pc + 2 } else .ok s
  else if nibble = 0x4000 then
    let x := (instruction &&& 0x0F00) >>> 8
    let value := instruction &&& 0x00FF
    if s.registers x ≠ value then .ok { s with pc := s.pc + 2 } else .ok s
  else if nibble = 0x5000 then
    let x := (instruction &&& 0x0F00) >>> 8
    let y := (instruction &&& 0x00F0) >>> 4
    if s.registers x = s.registers y then .ok { s with pc := s.pc + 2 } else .ok s
  else if nibble = 0x6000 then
    let register := (instruction &&& 0x0F00) >>> 8
    let value := instruction &&& 0x00FF
    .ok { s with registers := upd s.registers register value }
  else if nibble = 0x7000 then
    let register := (instruction &&& 0x0F00) >>> 8
    let value := instruction &&& 0x00FF
    -- `value.overflowing_add(self.registers[register]).0`
    .ok { s with registers := upd s.registers register ((value + s.registers register) % 256) }
  else if nibble = 0x8000 then
    let operation := instruction &&& 0x000F
    let x := (instruction &&& 0x0F00) >>> 8
    let y := (instruction &&& 0x00F0) >>> 4
    if operation = 0x0000 then
      .ok { s with registers := upd s.registers x (s.registers y) }
    else if operation = 0x0001 then
      .ok { s with registers := upd s.registers x (s.registers x ||| s.registers y) }
    else if operation = 0x0002 then
      .ok { s with registers := upd s.registers x (s.registers x &&& s.registers y) }
    else if operation = 0x0003 then
      .ok { s with registers := upd s.registers x (s.registers x ^^^ s.registers y) }
    else if operation = 0x0004 then
      -- add with carry: Vx is written first, VF (the carry) after
      let sum := s.registers x + s.registers y
      let r1 := upd s.registers x (sum &&& 0xFF)
      .ok { s with registers := upd r1 0xF (if sum > 0xFF then 1 else 0) }
    else if operation = 0x0005 then
      -- subtract with borrow
      let x_value := s.registers x
      let y_value := s.registers y
      if x_value ≥ y_value then
        let r1 := upd s.registers 0xF 1
        .ok { s with registers := upd r1 x ((x_value - y_value) % 256) }
      else
        let r1 := upd s.registers 0xF 0
        .ok { s with registers := upd r1 x ((256 + x_value - y_value) % 256) }
    else if operation = 0x0006 then
      -- right shift by 1; VF receives the least significant bit first
      let r1 := upd s.registers 0xF (s.registers x &&& 0x01)
      .ok { s with registers := upd r1 x (r1 x >>> 1) }
    else if operation = 0x0007 then
      -- "Subtract register x from register y"; note that the second branch
      -- of the source computes `256 + x_value - y_value`, with x and y in
      -- that order
      let x_value := s.registers x
      let y_value := s.registers y
      if y_value ≥ x_value then
        let r1 := upd s.registers 0xF 1
        .ok { s with registers := upd r1 x ((y_value - x_value) % 256) }
      else
        let r1 := upd s.registers 0xF 0
        .ok { s with registers := upd r1 x ((256 + x_value - y_value) % 256) }
    else if operation = 0x0008 then
      -- left shift by 1; VF receives the most significant bit first
      let r1 := upd s.registers 0xF ((s.registers x &&& 0x80) >>> 7)
      .ok { s with registers := upd r1 x ((r1 x <<< 1) % 256) }
    else .ok s
  else if nibble = 0x9000 then
    let x := (instruction &&& 0x0F00) >>> 8
    let y := (instruction &&& 0x00F0) >>> 4
    if s.registers x ≠ s.registers y then .ok { s with pc := s.pc + 2 } else .ok s
  else if nibble = 0xA000 then
    .ok { s with i := instruction &&& 0x0FFF }
  else if nibble = 0xB000 then
    let address := instruction &&& 0x0FFF
    -- `address.wrapping_add(self.registers[0x0] as u16)`
    .ok { s with pc := (address + s.registers 0x0) % 65536 }
  else if nibble = 0xC000 then
    let x := (instruction &&& 0x0F00) >>> 8
    let mask := instruction &&& 0x00FF
    let rand_num := rand % 256
    .ok { s with registers := upd s.registers x (rand_num &&& mask) }
  else if nibble = 0xD000 then
    let x := (instruction &&& 0x0F00) >>> 8
    let y := (instruction &&& 0x00F0) >>> 4
    let n := instruction &&& 0x000F
    let vx := s.registers x
    let vy := s.registers y
    drawRowsGo vx vy (List.range n) s
  else if nibble = 0xE000 then
    let operation := instruction &&& 0x00FF
    let x := (instruction &&& 0x0F00) >>> 8
    if operation = 0x009E then
      -- `self.keypad[self.registers[x as usize] as usize]`: the index is
      -- not masked, so a register value of 16 or more panics
      let idx := s.registers x
      if idx < 16 then
        if s.keypad idx then .ok { s with pc := s.pc + 2 } else .ok s
      else .crash
    else if operation = 0x00A1 then
      let idx := s.registers x
      if idx < 16 then
        if ¬ s.keypad idx then .ok { s with pc := s.pc + 2 } else .ok s
      else .crash
    else .ok s
  else if nibble = 0xF000 then
    let x := (instruction &&& 0x0F00) >>> 8
    let operation := instruction &&& 0x00FF
    if operation = 0x0007 then
      .ok { s with registers := upd s.registers x s.dt }
    else if operation = 0x000A then
      .ok { s with waiting_for_key := true, waiting_key_register := x }
    else if operation = 0x0015 then
      .ok { s with dt := s.registers x }
    else if operation = 0x0018 then
      .ok { s with st := s.registers x }
    else if operation = 0x001E then
      -- `self.i += self.registers[x as usize] as u16` (u16 wrap-around)
      .ok { s with i := (s.i + s.registers x) % 65536 }
    else if operation = 0x0029 then
      .ok { s with i := s.registers x * 5 }
    else if operation = 0x0033 then
      let digit := s.registers x
      if s.i + 2 < 4096 then
        let m1 := upd s.memory s.i (digit / 100)
        let m2 := upd m1 (s.i + 1) ((digit % 100) / 10)
        let m3 := upd m2 (s.i + 2) (digit % 10)
        .ok { s with memory := m3 }
      else .crash
    else if operation = 0x0055 then
      storeGo (List.range (x + 1)) s
    else if operation = 0x0065 then
      loadGo (List.range (x + 1)) s
    else .ok s
  else
    -- unmatched instruction: a diagnostic is printed, no state change
    .ok s

/-- `execute_instruction`: guard the fetch, read the big-endian word at PC,
advance PC by 2, dispatch. -/
def execute_instruction (rand : Nat) (s : Chip) : Outcome :=
  if s.pc + 1 ≥ 4096 then .ok s
  else
    let high := s.memory s.pc
    let low := s.memory (s.pc + 1)
    let instruction := (high <<< 8) ||| low
    execOp rand instruction { s with pc := s.pc + 2 }

/-- The SDL keycodes that `Chip::new` puts in `keypad_map`, plus the escape
key checked in `start_loop` and a stand-in for every other keycode. -/
inductive Keycode where
  | num1 | num2 | num3 | num4
  | q | w | e | r
  | a | s | d | f
  | z | x | c | v
  | escape
  | other
deriving DecidableEq

/-- The `keypad_map` association built in `Chip::new`. -/
def keypad_map : Keycode → Option Nat
  | .num1 => some 0x1
  | .num2 => some 0x2
  | .num3 => some 0x3
  | .num4 => some 0xC
  | .q => some 0x4
  | .w => some 0x5
  | .e => some 0x6
  | .r => some 0xD
  | .a => some 0x7
  | .s => some 0x8
  | .d => some 0x9
  | .f => some 0xE
  | .z => some 0xA
  | .x => some 0x0
  | .c => some 0xB
  | .v => some 0xF
  | .escape => none
  | .other => none

/-- The SDL events consumed by `start_loop`: key-up and key-down events
carrying a keycode, the window-close `Quit` event, and everything that
falls to the `_ => {}` arm (including key events with no keycode). -/
inductive Event where
  | keyUp (k : Keycode)
  | keyDown (k : Keycode)
  | quit
  | other

/-- The `for event in event_pump.poll_iter()` loop of `start_loop`.
Returns the updated state and `true` when the loop broke out of
`'running` (escape pressed or `Quit` received), leaving later events
unprocessed. -/
def processEvents (l : List Event) (s : Chip) : Chip × Bool :=
  match l with
  | [] => (s, false)
  | ev :: rest =>
    match ev with
    | .keyUp key =>
      match keypad_map key with
      | some key_index => processEvents rest { s with keypad := upd s.keypad key_index false }
      | none => processEvents rest s
    | .keyDown key =>
      if key = .escape then (s, true)
      else
        match keypad_map key with
        | some key_index =>
          let s1 := { s with keypad := upd s.keypad key_index true }
          -- Fx0A instruction handling
          let s2 := if s1.waiting_for_key then
              { s1 with registers := upd s1.registers s1.waiting_key_register key_index,
                        waiting_for_key := false }
            else s1
          processEvents rest s2
        | none => processEvents rest s
    | .quit => (s, true)
    | .other => processEvents rest s

/-- Result of one iteration of the `'running` loop in `start_loop`. -/
inductive TickResult where
  | step (s : Chip)           -- loop continues with this state
  | quit (s : Chip)           -- `break 'running`
  | died (e : VmErr)          -- `execute_instruction` returned `Err`
  | crashed                   -- a panic inside `execute_instruction`

/-- The first two statements of the `'running` loop body: decrement the
delay timer when positive, beep and decrement the sound timer when
positive. -/
def timersStep (s : Chip) : Chip :=
  let s := if s.dt > 0 then { s with dt := s.dt - 1 } else s
  if s.st > 0 then { s with st := s.st - 1 } else s

/-- One iteration of the `'running` loop of `start_loop`: decrement the
timers, drain the pending input events, and, when not parked by Fx0A,
execute one instruction.  The trailing 2 ms sleep has no effect on the
state.  `evs` is the content of the event queue this tick; `rand` feeds a
`0xC000` instruction if one runs. -/
def tick (rand : Nat) (evs : List Event) (s : Chip) : TickResult :=
  match processEvents evs (timersStep s) with
  | (s, true) => .quit s
  | (s, false) =>
    -- Fx0A instruction handling
    if ¬ s.waiting_for_key then
      match execute_instruction rand s with
      | .ok s1 => .step s1
      | .fatal e _ => .died e
      | .crash => .crashed
    else .step s

/-- The 80 font bytes written by `load_fonts`. -/
def font_data : List Nat :=
  [0xF0, 0x90, 0x90, 0x90, 0xF0,
   0x20, 0x60, 0x20, 0x20, 0x70,
   0xF0, 0x10, 0xF0, 0x80, 0xF0,
   0xF0, 0x10, 0xF0, 0x10, 0xF0,
   0x90, 0x90, 0xF0, 0x10, 0x10,
   0xF0, 0x80, 0xF0, 0x10, 0xF0,
   0xF0, 0x80, 0xF0, 0x90, 0xF0,
   0xF0, 0x10, 0x20, 0x40, 0x40,
   0xF0, 0x90, 0xF0, 0x90, 0xF0,
   0xF0, 0x90, 0xF0, 0x10, 0xF0,
   0xF0, 0x90, 0xF0, 0x90, 0x90,
   0xE0, 0x90, 0xE0, 0x90, 0xE0,
   0xF0, 0x80, 0x80, 0x80, 0xF0,
   0xE0, 0x90, 0x90, 0x90, 0xE0,
   0xF0, 0x80, 0xF0, 0x80, 0xF0,
   0xF0, 0x80, 0xF0, 0x80, 0x80]

/-- `load_fonts`: copy the 80 font bytes to the front of memory. -/
def load_fonts (memory : Nat → Nat) : Nat → Nat :=
  fun addr => if addr < font_data.length then font_data.getD addr 0 else memory addr

/-- `Chip::new()`: zeroed state, fonts loaded, PC at 0x200. -/
def Chip.new : Chip :=
  { memory := load_fonts (fun _ => 0)
    pc := 0x200
    registers := fun _ => 0
    i := 0
    dt := 0
    st := 0
    waiting_for_key := false
    waiting_key_register := 0x0
    screen := fun _ => 0
    stack := []
    keypad := fun _ => false }

/-- `Chip::load`: one `file.read(&mut self.memory[0x200..])` call, which
fills the 3584-byte slice starting at 0x200 with the first
`min rom.length 3584` bytes of the ROM and touches nothing else.  The ROM
file's bytes are modelled as the list `rom`. -/
def load (rom : List Nat) (s : Chip) : Chip :=
  { s with memory := fun addr =>
      if 0x200 ≤ addr ∧ addr < 0x200 + min rom.length 3584 then
        rom.getD (addr - 0x200) 0
      else s.memory addr }

/-- Register `n` of the final state, when the outcome is a normal return. -/
def Outcome.regOf (o : Outcome) (n : Nat) : Option Nat :=
  match o with
  | .ok s => some (s.registers n)
  | _ => none

/-- The program counter of the final state, when the outcome is a normal
return. -/
def Outcome.pcOf (o : Outcome) : Option Nat :=
  match o with
  | .ok s => some s.pc
  | _ => none

/-- Whether the outcome is a panic. -/
def Outcome.isCrash (o : Outcome) : Bool :=
  match o with
  | .crash => true
  | _ => false

/-- Whether the outcome is an `Err` return of the given kind. -/
def Outcome.isFatal (o : Outcome) (e : VmErr) : Bool :=
  match o with
  | .fatal e1 _ => e1 = e
  | _ => false

/-- The call stack of the final state, for normal and `Err` returns. -/
def Outcome.stackOf (o : Outcome) : Option (List Nat) :=
  match o with
  | .ok s => some s.stack
  | .fatal _ s => some s.stack
  | .crash => none

/-! ### Claim theorems -/

/-- A machine state with V0 = 2, used to evaluate BNNN concretely. -/
def bnnnState : Chip := { Chip.new with registers := upd Chip.new.registers 0x0 2 }

/-- C4 counterexample: executing 0xBFFF with V0 = 2 sets PC to 0x1001, not
to (0xFFF + 2) mod 0x1000 = 1, and the resulting PC is not below 0x1000. -/
theorem bnnn_no_mask_counterexample :
    Outcome.pcOf (execOp 0 0xBFFF bnnnState) = some 0x1001 ∧ (0xFFF + 2) % 0x1000 = 1 := by
  constructor
  · rfl
  · decide

/-- C4 amended: BNNN sets PC to (NNN + V0) mod 2^16 — a u16 wrapping add
with no 12-bit mask — which for NNN ≤ 0xFFF and V0 < 256 equals NNN + V0
and can therefore reach addresses up to 0x10FE, at or above 0x1000. -/
theorem bnnn_sets_pc (r : Nat) (s : Chip) (ins : Nat)
    (hni : ins &&& 0xF000 = 0xB000) (hv0 : s.registers 0x0 < 256) :
    execOp r ins s = .ok { s with pc := (ins &&& 0x0FFF) + s.registers 0x0 } := by
  have hnnn : ins &&& 0x0FFF ≤ 0x0FFF := Nat.and_le_right
  have hlt : (ins &&& 0x0FFF) + s.registers 0x0 < 65536 := by omega
  simp [execOp, hni, Nat.mod_eq_of_lt hlt]

/-- Witness for `bnnn_sets_pc` at ins = 0xBFFF, V0 = 2. -/
theorem bnnn_sets_pc_witness :
    (0xBFFF &&& 0xF000 = 0xB000) ∧ bnnnState.registers 0x0 < 256 ∧
    execOp 0 0xBFFF bnnnState = .ok { bnnnState with pc := (0xBFFF &&& 0x0FFF) + bnnnState.registers 0x0 } :=
  ⟨by decide, by decide, bnnn_sets_pc 0 bnnnState 0xBFFF (by decide) (by decide)⟩

/-- Screen pixel `p` of the final state, when the outcome is a normal
return. -/
def Outcome.screenOf (o : Outcome) (p : Nat) : Option Nat :=
  match o with
  | .ok s => some (s.screen p)
  | _ => none

/-- A machine state with V3 = 1 and V4 = 0, used to evaluate SUBN. -/
def subnState : Chip := { Chip.new with registers := upd Chip.new.registers 0x3 1 }

/-- C1: executing 0x8347 (SUBN V3,V4) with V3 = 1, V4 = 0 takes the borrow
branch and sets V3 to (256 + V3 − V4) mod 256 = 1, with VF = 0, whereas
(V4 − V3) mod 256 = 256 + V4 − V3 = 255: the source subtracts in the wrong
direction in the borrow case. -/
theorem subn_borrow_wrong_direction :
    subnState.registers 0x3 = 1 ∧ subnState.registers 0x4 = 0 ∧
    Outcome.regOf (execOp 0 0x8347 subnState) 0x3 = some 1 ∧
    Outcome.regOf (execOp 0 0x8347 subnState) 0xF = some 0 ∧
    (256 + subnState.registers 0x4 - subnState.registers 0x3) % 256 = 255 := by
  decide

/-- A machine state with VF = 1 and a dark screen, used to evaluate DRW.
`Chip.new` has the font glyph byte 0xF0 at address 0, where I points. -/
def drwVfState : Chip := { Chip.new with registers := upd Chip.new.registers 0xF 1 }

/-- C2: executing 0xD011 (DRW V0,V1,1) on an all-dark screen draws the
sprite byte 0xF0 at (0,0) — pixel (0,0) lights up, so the draw happened and
erased nothing — yet VF is still 1 from before the instruction: the source
never clears VF at the start of DXYN, so VF = 1 does not mean a collision
occurred during this draw. -/
theorem drw_vf_not_reset :
    drwVfState.registers 0xF = 1 ∧
    (∀ p, p < WIDTH * HEIGHT → drwVfState.screen p = 0) ∧
    Outcome.screenOf (execOp 0 0xD011 drwVfState) 0 = some 1 ∧
    Outcome.regOf (execOp 0 0xD011 drwVfState) 0xF = some 1 := by
  refine ⟨by decide, ?_, by decide, by decide⟩
  intro p _
  rfl

/-- A machine state with I = 4095, used to evaluate DRW out of range. -/
def drwOobState : Chip := { Chip.new with i := 4095 }

/-- C3: executing 0xD012 (DRW V0,V1,2) with I = 4095 reads the sprite byte
for row 1 at address 4096, one past the end of the 4 KiB array: the read is
not masked and the instruction panics instead of completing. -/
theorem drw_oob_read_panics :
    drwOobState.i = 4095 ∧
    Outcome.isCrash (execOp 0 0xD012 drwOobState) = true := by
  decide

/-- A machine state whose stack already holds 29 return addresses. -/
def callState : Chip := { Chip.new with stack := List.replicate 29 0x200 }

/-- C5 counterexample: with 29 return addresses on the stack — fewer than
the capacity STACK_SIZE = 30 — executing 0x2333 (CALL 0x333) does not push:
the `len + 1 >= STACK_SIZE` guard fires and the instruction fails fatally,
leaving the stack unchanged. -/
theorem call_fatal_at_depth_29 :
    callState.stack.length = 29 ∧ callState.stack.length < STACK_SIZE ∧
    Outcome.isFatal (execOp 0 0x2333 callState) VmErr.stackOverflow = true ∧
    Outcome.stackOf (execOp 0 0x2333 callState) = some callState.stack := by
  decide

/-- C5 amended: CALL pushes the advanced PC and jumps whenever the stack
holds at most 28 return addresses, and fails fatally — stack unchanged —
exactly when the depth is 29 or more: the `len + 1 >= 30` guard makes the
effective capacity 29, not 30. -/
theorem call_push_or_overflow (r : Nat) (s : Chip) (ins : Nat)
    (hni : ins &&& 0xF000 = 0x2000) :
    (s.stack.length + 1 < STACK_SIZE →
      execOp r ins s = .ok { s with stack := s.pc :: s.stack, pc := ins &&& 0x0FFF }) ∧
    (s.stack.length + 1 ≥ STACK_SIZE →
      execOp r ins s = .fatal .stackOverflow s) := by
  constructor
  · intro h
    have h1 : ¬ (s.stack.length + 1 ≥ STACK_SIZE) := by omega
    simp [execOp, hni, h1]
  · intro h
    simp [execOp, hni, h]

/-- Witness for `call_push_or_overflow` at ins = 0x2333 on the fresh
machine (empty stack). -/
theorem call_push_or_overflow_witness :
    (0x2333 &&& 0xF000 = 0x2000) ∧ Chip.new.stack.length + 1 < STACK_SIZE ∧
    execOp 0 0x2333 Chip.new = .ok { Chip.new with stack := Chip.new.pc :: Chip.new.stack, pc := 0x2333 &&& 0x0FFF } :=
  ⟨by decide, by decide,
    (call_push_or_overflow 0 Chip.new 0x2333 (by decide)).1 (by decide)⟩

/-- A machine state with V5 = 16, one past the highest keypad index. -/
def skpState : Chip := { Chip.new with registers := upd Chip.new.registers 0x5 16 }

/-- C6 counterexample: with V5 = 16 — a value greater than 0xF — executing
0xE59E (SKP V5) or 0xE5A1 (SKNP V5) panics: the keypad index is not masked
to 4 bits, so the instructions fault instead of consulting
keypad[16 & 0xF] = keypad[0]. -/
theorem skp_unmasked_index_panics :
    skpState.registers 0x5 = 16 ∧
    Outcome.isCrash (execOp 0 0xE59E skpState) = true ∧
    Outcome.isCrash (execOp 0 0xE5A1 skpState) = true ∧
    skpState.keypad (16 &&& 0xF) = false := by
  decide

/-- C6 amended: for Vx below 16, EX9E adds 2 to PC exactly when keypad[Vx]
is pressed and EXA1 adds 2 to PC exactly when it is not — the index is used
unmasked — and for Vx of 16 or more both instructions panic. -/
theorem skp_sknp_skip (r : Nat) (s : Chip) (ins9E insA1 x : Nat)
    (h9n : ins9E &&& 0xF000 = 0xE000) (h9o : ins9E &&& 0x00FF = 0x9E)
    (h9x : (ins9E &&& 0x0F00) >>> 8 = x)
    (hAn : insA1 &&& 0xF000 = 0xE000) (hAo : insA1 &&& 0x00FF = 0xA1)
    (hAx : (insA1 &&& 0x0F00) >>> 8 = x) :
    (s.registers x < 16 →
      Outcome.pcOf (execOp r ins9E s) =
        some (if s.keypad (s.registers x) then s.pc + 2 else s.pc) ∧
      Outcome.pcOf (execOp r insA1 s) =
        some (if s.keypad (s.registers x) then s.pc else s.pc + 2)) ∧
    (16 ≤ s.registers x →
      execOp r ins9E s = .crash ∧ execOp r insA1 s = .crash) := by
  constructor
  · intro h
    constructor
    · by_cases hk : s.keypad (s.registers x) <;>
        simp [execOp, h9n, h9o, h9x, h, hk, Outcome.pcOf]
    · by_cases hk : s.keypad (s.registers x) <;>
        simp [execOp, hAn, hAo, hAx, h, hk, Outcome.pcOf]
  · intro h
    have h1 : ¬ (s.registers x < 16) := by omega
    constructor
    · simp [execOp, h9n, h9o, h9x, h1]
    · simp [execOp, hAn, hAo, hAx, h1]

/-- Witness for `skp_sknp_skip` at x = 5 with V5 = 7 on the fresh machine
(no key pressed). -/
theorem skp_sknp_skip_witness :
    (0xE59E &&& 0xF000 = 0xE000) ∧ (0xE59E &&& 0x00FF = 0x9E) ∧
    ((0xE59E &&& 0x0F00) >>> 8 = 5) ∧
    (0xE5A1 &&& 0xF000 = 0xE000) ∧ (0xE5A1 &&& 0x00FF = 0xA1) ∧
    ((0xE5A1 &&& 0x0F00) >>> 8 = 5) ∧
    Chip.new.registers 5 < 16 ∧
    Outcome.pcOf (execOp 0 0xE59E Chip.new) =
      some (if Chip.new.keypad (Chip.new.registers 5) then Chip.new.pc + 2 else Chip.new.pc) ∧
    Outcome.pcOf (execOp 0 0xE5A1 Chip.new) =
      some (if Chip.new.keypad (Chip.new.registers 5) then Chip.new.pc else Chip.new.pc + 2) := by
  refine ⟨by decide, by decide, by decide, by decide, by decide, by decide, by decide, ?_⟩
  exact (skp_sknp_skip 0 Chip.new 0xE59E 0xE5A1 5 (by decide) (by decide)
    (by decide) (by decide) (by decide) (by decide)).1 (by decide)

/-- C7: after 8XY4, VF is 1 exactly when the initial Vx + Vy reached 256 —
the carry is written after Vx, so this holds even for X = 0xF — and for
X ≠ 0xF the register Vx holds (Vx + Vy) mod 256. -/
theorem add_with_carry (r : Nat) (s : Chip) (ins x y : Nat)
    (hni : ins &&& 0xF000 = 0x8000) (hop : ins &&& 0x000F = 0x4)
    (hx : (ins &&& 0x0F00) >>> 8 = x) (hy : (ins &&& 0x00F0) >>> 4 = y) :
    Outcome.regOf (execOp r ins s) 0xF =
      some (if 256 ≤ s.registers x + s.registers y then 1 else 0) ∧
    (x ≠ 0xF → Outcome.regOf (execOp r ins s) x =
      some ((s.registers x + s.registers y) % 256)) := by
  constructor
  · by_cases hc : 256 ≤ s.registers x + s.registers y
    · have hgt : s.registers x + s.registers y > 0xFF := by omega
      simp [execOp, hni, hop, hx, hy, Outcome.regOf, upd, hc, hgt]
    · have hgt : ¬ (s.registers x + s.registers y > 0xFF) := by omega
      simp [execOp, hni, hop, hx, hy, Outcome.regOf, upd, hc, hgt]
  · intro hxf
    have hmod : (s.registers x + s.registers y) &&& 0xFF =
        (s.registers x + s.registers y) % 256 := by
      have h8 := Nat.and_pow_two_sub_one_eq_mod (s.registers x + s.registers y) 8
      norm_num at h8
      exact h8
    simp [execOp, hni, hop, hx, hy, Outcome.regOf, upd, hxf, hmod]

/-- Witness for `add_with_carry` at ins = 0x8124 (x = 1, y = 2) on the
fresh machine. -/
theorem add_with_carry_witness :
    (0x8124 &&& 0xF000 = 0x8000) ∧ (0x8124 &&& 0x000F = 0x4) ∧
    ((0x8124 &&& 0x0F00) >>> 8 = 1) ∧ ((0x8124 &&& 0x00F0) >>> 4 = 2) ∧
    (Outcome.regOf (execOp 0 0x8124 Chip.new) 0xF =
      some (if 256 ≤ Chip.new.registers 1 + Chip.new.registers 2 then 1 else 0) ∧
    ((1 : Nat) ≠ 0xF → Outcome.regOf (execOp 0 0x8124 Chip.new) 1 =
      some ((Chip.new.registers 1 + Chip.new.registers 2) % 256))) :=
  ⟨by decide, by decide, by decide, by decide,
    add_with_carry 0 Chip.new 0x8124 1 2 (by decide) (by decide) (by decide) (by decide)⟩

/-- Running the FX55 store loop over in-range addresses succeeds, keeps I
and the registers, writes each register to memory at I + j, and leaves
every other memory byte alone. -/
theorem storeGo_spec (l : List Nat) : ∀ (s : Chip), (∀ j ∈ l, s.i + j < 4096) →
    ∃ s1, storeGo l s = .ok s1 ∧ s1.i = s.i ∧ s1.registers = s.registers ∧
      (∀ j ∈ l, s1.memory (s.i + j) = s.registers j) ∧
      (∀ a, (∀ j ∈ l, a ≠ s.i + j) → s1.memory a = s.memory a) := by
  induction l with
  | nil =>
    intro s _
    exact ⟨s, rfl, rfl, rfl, by simp, fun a _ => rfl⟩
  | cons j rest ih =>
    intro s h
    have hj : s.i + j < 4096 := h j (by simp)
    obtain ⟨s1, hrun, hi, hr, hmem, hframe⟩ :=
      ih { s with memory := upd s.memory (s.i + j) (s.registers j) }
        (fun j' hj' => h j' (by simp [hj']))
    refine ⟨s1, ?_, hi, hr, ?_, ?_⟩
    · show storeGo (j :: rest) s = .ok s1
      simp only [storeGo, if_pos hj]
      exact hrun
    · intro j' hj'
      rcases List.mem_cons.mp hj' with h1 | h1
      · subst h1
        by_cases hjr : j' ∈ rest
        · exact hmem j' hjr
        · have hfr := hframe (s.i + j') (fun jr hjr2 => by
            intro heq
            have heq2 : s.i + j' = s.i + jr := heq
            exact hjr (by
              have : j' = jr := by omega
              rw [this]; exact hjr2))
          rw [hfr]
          simp [upd]
      · exact hmem j' h1
    · intro a ha
      have hfr := hframe a (fun jr hjr => ha jr (by simp [hjr]))
      rw [hfr]
      have hne : a ≠ s.i + j := ha j (by simp)
      simp [upd, hne]

/-- Running the FX65 load loop over in-range addresses succeeds, keeps I
and the memory, loads each register from memory at I + j, and leaves every
other register alone. -/
theorem loadGo_spec (l : List Nat) : ∀ (s : Chip), (∀ j ∈ l, s.i + j < 4096) →
    ∃ s1, loadGo l s = .ok s1 ∧ s1.i = s.i ∧ s1.memory = s.memory ∧
      (∀ j ∈ l, s1.registers j = s.memory (s.i + j)) ∧
      (∀ k, (∀ j ∈ l, k ≠ j) → s1.registers k = s.registers k) := by
  induction l with
  | nil =>
    intro s _
    exact ⟨s, rfl, rfl, rfl, by simp, fun k _ => rfl⟩
  | cons j rest ih =>
    intro s h
    have hj : s.i + j < 4096 := h j (by simp)
    obtain ⟨s1, hrun, hi, hm, hreg, hframe⟩ :=
      ih { s with registers := upd s.registers j (s.memory (s.i + j)) }
        (fun j' hj' => h j' (by simp [hj']))
    refine ⟨s1, ?_, hi, hm, ?_, ?_⟩
    · show loadGo (j :: rest) s = .ok s1
      simp only [loadGo, if_pos hj]
      exact hrun
    · intro j' hj'
      rcases List.mem_cons.mp hj' with h1 | h1
      · subst h1
        by_cases hjr : j' ∈ rest
        · exact hreg j' hjr
        · have hfr := hframe j' (fun jr hjr2 => by
            intro heq
            rw [heq] at hjr
            exact hjr hjr2)
          rw [hfr]
          simp [upd]
      · exact hreg j' h1
    · intro k hk
      have hfr := hframe k (fun jr hjr => hk jr (by simp [hjr]))
      rw [hfr]
      have hne : k ≠ j := hk j (by simp)
      simp [upd, hne]

/-- C8: for X below 16 and I + X at most 4095, FX55 followed by FX65 with
the same I and X and no intervening writes succeeds, neither instruction
changes I, and V0..VX end up equal to their values before the pair. -/
theorem store_load_roundtrip (r1 r2 : Nat) (s : Chip) (ins55 ins65 x : Nat)
    (h5n : ins55 &&& 0xF000 = 0xF000) (h5o : ins55 &&& 0x00FF = 0x55)
    (h5x : (ins55 &&& 0x0F00) >>> 8 = x)
    (h6n : ins65 &&& 0xF000 = 0xF000) (h6o : ins65 &&& 0x00FF = 0x65)
    (h6x : (ins65 &&& 0x0F00) >>> 8 = x)
    (hx : x < 16) (hix : s.i + x ≤ 4095) :
    ∃ s1 s2, execOp r1 ins55 s = .ok s1 ∧ execOp r2 ins65 s1 = .ok s2 ∧
      s1.i = s.i ∧ s2.i = s.i ∧
      (∀ k, k ≤ x → s2.registers k = s.registers k) := by
  have hb : ∀ j ∈ List.range (x + 1), s.i + j < 4096 := by
    intro j hj
    have : j < x + 1 := List.mem_range.mp hj
    omega
  obtain ⟨s1, hrun1, hi1, hr1, hmem1, _⟩ := storeGo_spec (List.range (x + 1)) s hb
  have hexec1 : execOp r1 ins55 s = .ok s1 := by
    have hred : execOp r1 ins55 s = storeGo (List.range (x + 1)) s := by
      simp [execOp, h5n, h5o, h5x]
    rw [hred, hrun1]
  have hb2 : ∀ j ∈ List.range (x + 1), s1.i + j < 4096 := by
    intro j hj
    rw [hi1]
    exact hb j hj
  obtain ⟨s2, hrun2, hi2, _, hreg2, _⟩ := loadGo_spec (List.range (x + 1)) s1 hb2
  have hexec2 : execOp r2 ins65 s1 = .ok s2 := by
    have hred : execOp r2 ins65 s1 = loadGo (List.range (x + 1)) s1 := by
      simp [execOp, h6n, h6o, h6x]
    rw [hred, hrun2]
  refine ⟨s1, s2, hexec1, hexec2, hi1, hi2.trans hi1, ?_⟩
  intro k hk
  have hkmem : k ∈ List.range (x + 1) := List.mem_range.mpr (by omega)
  calc s2.registers k = s1.memory (s1.i + k) := hreg2 k hkmem
    _ = s1.memory (s.i + k) := by rw [hi1]
    _ = s.registers k := hmem1 k hkmem

/-- Witness for `store_load_roundtrip` at x = 3 with I = 0x300 (the
instructions 0xF355 and 0xF365) on the fresh machine. -/
theorem store_load_roundtrip_witness :
    (0xF355 &&& 0xF000 = 0xF000) ∧ (0xF355 &&& 0x00FF = 0x55) ∧
    ((0xF355 &&& 0x0F00) >>> 8 = 3) ∧
    (0xF365 &&& 0xF000 = 0xF000) ∧ (0xF365 &&& 0x00FF = 0x65) ∧
    ((0xF365 &&& 0x0F00) >>> 8 = 3) ∧
    (3 : Nat) < 16 ∧ ({ Chip.new with i := 0x300 } : Chip).i + 3 ≤ 4095 ∧
    (∃ s1 s2, execOp 0 0xF355 { Chip.new with i := 0x300 } = .ok s1 ∧
      execOp 0 0xF365 s1 = .ok s2 ∧
      s1.i = ({ Chip.new with i := 0x300 } : Chip).i ∧
      s2.i = ({ Chip.new with i := 0x300 } : Chip).i ∧
      (∀ k, k ≤ 3 → s2.registers k = ({ Chip.new with i := 0x300 } : Chip).registers k)) :=
  ⟨by decide, by decide, by decide, by decide, by decide, by decide, by decide, by decide,
    store_load_roundtrip 0 0 { Chip.new with i := 0x300 } 0xF355 0xF365 3
      (by decide) (by decide) (by decide) (by decide) (by decide) (by decide)
      (by decide) (by decide)⟩

/-- Events that neither resolve a pending key-wait nor break the run loop:
key-ups, events with no keycode, and key-downs of keys that are neither
escape nor mapped in `keypad_map`. -/
def keepsWaiting : Event → Bool
  | .keyUp _ => true
  | .keyDown k => decide (k ≠ Keycode.escape) && (keypad_map k).isNone
  | .quit => false
  | .other => true

/-- Draining a queue of `keepsWaiting` events while parked by Fx0A keeps
the machine parked and touches nothing but the keypad. -/
theorem processEvents_keeps (l : List Event) : ∀ (s : Chip),
    s.waiting_for_key = true → (∀ e ∈ l, keepsWaiting e = true) →
    ∃ s1, processEvents l s = (s1, false) ∧ s1.waiting_for_key = true ∧
      s1.pc = s.pc ∧ s1.registers = s.registers ∧ s1.memory = s.memory ∧
      s1.i = s.i ∧ s1.dt = s.dt ∧ s1.st = s.st ∧ s1.stack = s.stack ∧
      s1.screen = s.screen ∧ s1.waiting_key_register = s.waiting_key_register := by
  induction l with
  | nil =>
    intro s hw _
    exact ⟨s, rfl, hw, rfl, rfl, rfl, rfl, rfl, rfl, rfl, rfl, rfl⟩
  | cons e rest ih =>
    intro s hw h
    have he := h e (by simp)
    have hrest : ∀ e1 ∈ rest, keepsWaiting e1 = true := fun e1 he1 => h e1 (by simp [he1])
    cases e with
    | keyUp k =>
      cases hmap : keypad_map k with
      | none =>
        obtain ⟨s1, hrun, hp⟩ := ih s hw hrest
        exact ⟨s1, by simp only [processEvents, hmap]; exact hrun, hp⟩
      | some idx =>
        obtain ⟨s1, hrun, hp⟩ := ih { s with keypad := upd s.keypad idx false } hw hrest
        exact ⟨s1, by simp only [processEvents, hmap]; exact hrun, hp⟩
    | keyDown k =>
      simp only [keepsWaiting, Bool.and_eq_true, decide_eq_true_eq,
        Option.isNone_iff_eq_none] at he
      obtain ⟨s1, hrun, hp⟩ := ih s hw hrest
      refine ⟨s1, ?_, hp⟩
      simp only [processEvents, he.2, if_neg he.1]
      exact hrun
    | quit => simp [keepsWaiting] at he
    | other =>
      obtain ⟨s1, hrun, hp⟩ := ih s hw hrest
      exact ⟨s1, by simp only [processEvents]; exact hrun, hp⟩

/-- `timersStep` decrements both timers (saturating at zero, matching the
`> 0` guards) and leaves every other field alone. -/
theorem timersStep_fields (s : Chip) :
    (timersStep s).waiting_for_key = s.waiting_for_key ∧
    (timersStep s).waiting_key_register = s.waiting_key_register ∧
    (timersStep s).pc = s.pc ∧ (timersStep s).registers = s.registers ∧
    (timersStep s).memory = s.memory ∧ (timersStep s).i = s.i ∧
    (timersStep s).stack = s.stack ∧ (timersStep s).screen = s.screen ∧
    (timersStep s).keypad = s.keypad ∧
    (timersStep s).dt = s.dt - 1 ∧ (timersStep s).st = s.st - 1 := by
  by_cases hdt : s.dt > 0 <;> by_cases hst : s.st > 0 <;>
    simp [timersStep, hdt, hst] <;> omega

/-- C9: the key-wait state machine of the run loop.  (1) Fx0A arms the
latch targeting register X and changes nothing else, the program counter
included.  (2) While the latch is armed, a tick whose events neither press
a mapped key nor break the loop executes no instruction — PC, registers,
memory, I, stack and screen are untouched — while both timers still
decrement and the events are still drained.  (3) A key-up of a mapped key
is still ingested during the wait: its keypad slot clears, the machine
stays parked, PC does not move.  (4) The first key-down of a mapped key
stores its logical index into V[target] and disarms the latch. -/
theorem keywait_state_machine (r : Nat) :
    (∀ (s : Chip) (ins x : Nat), ins &&& 0xF000 = 0xF000 → ins &&& 0x00FF = 0x0A →
      (ins &&& 0x0F00) >>> 8 = x →
      execOp r ins s = .ok { s with waiting_for_key := true, waiting_key_register := x }) ∧
    (∀ (s : Chip) (evs : List Event), s.waiting_for_key = true →
      (∀ e ∈ evs, keepsWaiting e = true) →
      ∃ s1, tick r evs s = .step s1 ∧ s1.waiting_for_key = true ∧
        s1.pc = s.pc ∧ s1.registers = s.registers ∧ s1.memory = s.memory ∧
        s1.i = s.i ∧ s1.stack = s.stack ∧ s1.screen = s.screen ∧
        s1.dt = s.dt - 1 ∧ s1.st = s.st - 1) ∧
    (∀ (s : Chip) (k : Keycode) (idx : Nat), s.waiting_for_key = true →
      keypad_map k = some idx →
      ∃ s1, tick r [Event.keyUp k] s = .step s1 ∧ s1.keypad idx = false ∧
        s1.waiting_for_key = true ∧ s1.pc = s.pc) ∧
    (∀ (s : Chip) (k : Keycode) (idx : Nat), s.waiting_for_key = true →
      keypad_map k = some idx → k ≠ Keycode.escape →
      ∃ s1, processEvents [Event.keyDown k] s = (s1, false) ∧
        s1.registers s.waiting_key_register = idx ∧ s1.waiting_for_key = false ∧
        s1.keypad idx = true ∧ s1.pc = s.pc ∧ s1.memory = s.memory) := by
  refine ⟨?_, ?_, ?_, ?_⟩
  · intro s ins x hni hop hx
    simp [execOp, hni, hop, hx]
  · intro s evs hw hevs
    obtain ⟨tw, twk, tpc, treg, tmem, ti, tstack, tscr, tkp, tdt, tst⟩ := timersStep_fields s
    obtain ⟨s1, hrun, hws, hpc, hreg, hmem, hi, hdt, hst, hstack, hscr, hwkr⟩ :=
      processEvents_keeps evs (timersStep s) (tw.trans hw) hevs
    refine ⟨s1, ?_, hws, hpc.trans tpc, hreg.trans treg, hmem.trans tmem,
      hi.trans ti, hstack.trans tstack, hscr.trans tscr, hdt.trans tdt, hst.trans tst⟩
    simp only [tick, hrun]
    simp [hws]
  · intro s k idx hw hmap
    obtain ⟨tw, twk, tpc, treg, tmem, ti, tstack, tscr, tkp, tdt, tst⟩ := timersStep_fields s
    refine ⟨{ (timersStep s) with keypad := upd (timersStep s).keypad idx false },
      ?_, by simp [upd], ?_, ?_⟩
    · simp only [tick, processEvents, hmap]
      simp [tw, hw]
    · show (timersStep s).waiting_for_key = true
      exact tw.trans hw
    · show (timersStep s).pc = s.pc
      exact tpc
  · intro s k idx hw hmap hne
    refine ⟨{ s with keypad := upd s.keypad idx true, registers := upd s.registers s.waiting_key_register idx, waiting_for_key := false }, ?_, by simp [upd], rfl, by simp [upd], rfl, rfl⟩
    simp only [processEvents, hmap, if_neg hne]
    simp [hw]

/-- A machine parked by Fx0A, waiting to fill V3. -/
def parkedState : Chip := { Chip.new with waiting_for_key := true, waiting_key_register := 3 }

/-- Witness for `keywait_state_machine`: arming with 0xF30A on the fresh
machine, a parked tick over a keycode-less event, a key-up of Z (logical
0xA) while parked, and a key-down of Z resolving the wait into V3. -/
theorem keywait_state_machine_witness :
    ((0xF30A &&& 0xF000 = 0xF000) ∧ (0xF30A &&& 0x00FF = 0x0A) ∧
      ((0xF30A &&& 0x0F00) >>> 8 = 3) ∧
      parkedState.waiting_for_key = true ∧
      (∀ e ∈ [Event.other], keepsWaiting e = true) ∧
      keypad_map Keycode.z = some 0xA ∧ Keycode.z ≠ Keycode.escape) ∧
    execOp 0 0xF30A Chip.new =
      .ok { Chip.new with waiting_for_key := true, waiting_key_register := 3 } ∧
    (∃ s1, tick 0 [Event.other] parkedState = .step s1 ∧ s1.waiting_for_key = true ∧
      s1.pc = parkedState.pc ∧ s1.registers = parkedState.registers ∧
      s1.memory = parkedState.memory ∧ s1.i = parkedState.i ∧
      s1.stack = parkedState.stack ∧ s1.screen = parkedState.screen ∧
      s1.dt = parkedState.dt - 1 ∧ s1.st = parkedState.st - 1) ∧
    (∃ s1, tick 0 [Event.keyUp Keycode.z] parkedState = .step s1 ∧
      s1.keypad 0xA = false ∧ s1.waiting_for_key = true ∧ s1.pc = parkedState.pc) ∧
    (∃ s1, processEvents [Event.keyDown Keycode.z] parkedState = (s1, false) ∧
      s1.registers parkedState.waiting_key_register = 0xA ∧
      s1.waiting_for_key = false ∧ s1.keypad 0xA = true ∧
      s1.pc = parkedState.pc ∧ s1.memory = parkedState.memory) := by
  have h := keywait_state_machine 0
  refine ⟨⟨by decide, by decide, by decide, rfl, by decide, rfl, by decide⟩, ?_, ?_, ?_, ?_⟩
  · exact h.1 Chip.new 0xF30A 3 (by decide) (by decide) (by decide)
  · exact h.2.1 parkedState [Event.other] rfl (by decide)
  · exact h.2.2.1 parkedState Keycode.z 0xA rfl rfl
  · exact h.2.2.2 parkedState Keycode.z 0xA rfl rfl (by decide)

/-- C10: loading a ROM never touches memory below 0x200 — the font region
included — never touches memory at or beyond 0x200 + 3584 = 4096, and a ROM
longer than 3584 bytes loads exactly like its first 3584 bytes: the excess
is silently truncated. -/
theorem load_confined (rom : List Nat) (s : Chip) :
    (∀ a, a < 0x200 → (load rom s).memory a = s.memory a) ∧
    (∀ a, 0x200 + 3584 ≤ a → (load rom s).memory a = s.memory a) ∧
    load rom s = load (rom.take 3584) s := by
  have hmin : min (rom.take 3584).length 3584 = min rom.length 3584 := by
    simp only [List.length_take]
    omega
  refine ⟨?_, ?_, ?_⟩
  · intro a ha
    simp only [load]
    rw [if_neg (by omega)]
  · intro a ha
    simp only [load]
    rw [if_neg (by omega)]
  · simp only [load]
    congr 1
    funext a
    by_cases hin : 0x200 ≤ a ∧ a < 0x200 + min rom.length 3584
    · rw [if_pos hin,
        if_pos (show 0x200 ≤ a ∧ a < 0x200 + min (rom.take 3584).length 3584 by omega)]
      have hidx : a - 0x200 < 3584 := by omega
      rw [List.getD_eq_getElem?_getD, List.getD_eq_getElem?_getD,
        List.getElem?_take_of_lt hidx]
    · rw [if_neg hin, if_neg (by omega)]

/-- Witness for `load_confined` with the one-byte ROM [7] on the fresh
machine, below 0x200 at address 0x100 and above the window at 5000. -/
theorem load_confined_witness :
    ((0x100 : Nat) < 0x200 ∧ (load [7] Chip.new).memory 0x100 = Chip.new.memory 0x100) ∧
    ((0x200 + 3584 : Nat) ≤ 5000 ∧ (load [7] Chip.new).memory 5000 = Chip.new.memory 5000) ∧
    load [7] Chip.new = load (List.take 3584 [7]) Chip.new :=
  ⟨⟨by decide, (load_confined [7] Chip.new).1 0x100 (by decide)⟩,
   ⟨by decide, (load_confined [7] Chip.new).2.1 5000 (by decide)⟩,
   (load_confined [7] Chip.new).2.2⟩
